import Mathlib

/-!
Verification of the RAIN-CHECK screenplay-analysis pipeline (`src/app3.py`).

Shallow embedding:
* Python strings are modelled as `List Char` where character-level rewriting
  matters (the markup cleaner) and as `String` elsewhere.
* `clean_markdown` embeds the four `re.sub` passes plus `str.strip`.
  Each `re.sub` scans left to right, consuming a maximal match and
  continuing after it; the embeddings below implement exactly that scan.
* `extract_text_from_pdf` embeds the page loop as a left fold over the
  list of per-page extracted texts of an already-parsed document.
* `create_pdf_report` embeds the FPDF calls as a straight-line list of
  rendering operations executed in program order; the `os.path.isfile`
  checks become a `FontCheck` record describing which font files exist,
  and `raise FileNotFoundError` becomes `Except.error` carrying the
  message and the operations already executed.
* `get_all_analyses_single` embeds the per-category OpenAI loop; the
  remote call is a parameter `call : String → Except ε String`, and the
  function additionally records the prompts actually sent.
-/

deriving instance DecidableEq for Except

/-! ## Markup cleaner (`clean_markdown`, app3.py lines 51-56) -/

/-- The whitespace class used by the `\s` regex class and by `str.strip`
(ASCII fragment: space, tab, newline, carriage return, vertical tab,
form feed). -/
def isPySpace (c : Char) : Bool :=
  c == ' ' || c == '\t' || c == '\n' || c == '\r' || c == '\x0b' || c == '\x0c'

/-- The backtick character (U+0060), written by code point. -/
def backtickChar : Char := Char.ofNat 96

/-- Embedding of `re.sub(r"(\*\*|__)", "", text)`: delete every occurrence
of `**` or `__`, scanning left to right and continuing after each deleted
pair. -/
def removeBold : List Char → List Char
  | [] => []
  | [c] => [c]
  | c1 :: c2 :: rest =>
    if (c1 == '*' && c2 == '*') || (c1 == '_' && c2 == '_') then
      removeBold rest
    else
      c1 :: removeBold (c2 :: rest)

mutual

/-- Embedding of `re.sub(r"(#+\s*)", "", text)`.  The pattern has nothing
after the greedy `\s*`, so the left-to-right substitution scan is exactly
this two-state scanner: outside a match, a `#` opens a deleted region
(`dropHeading`); inside it, further `#` (a new `#+` run restarting the
match) and whitespace (the `\s*` tail) are deleted, and the first other
character closes it. -/
def removeHeadings : List Char → List Char
  | [] => []
  | c :: rest => if c == '#' then dropHeading rest else c :: removeHeadings rest

/-- The deleted region opened by a `#`: see `removeHeadings`. -/
def dropHeading : List Char → List Char
  | [] => []
  | c :: rest =>
    if c == '#' || isPySpace c then dropHeading rest else c :: removeHeadings rest

end

/-- Embedding of ``re.sub(r"`", "", text)`` (the pattern is a single
backtick): delete every backtick. -/
def removeBackticks (l : List Char) : List Char :=
  l.filter (fun c => !(c == backtickChar))

/-- Embedding of `re.sub(r"\n{3,}", "\n\n", text)`: each maximal run of
`n ≥ 3` newlines becomes exactly two, shorter runs stay.  Implemented by
emitting `min n 2` newlines per maximal run: the counter is the number of
newlines already emitted for the current run, capped at 2. -/
def collapseNLAux : Nat → List Char → List Char
  | _, [] => []
  | k, c :: rest =>
    if c == '\n' then
      if k < 2 then '\n' :: collapseNLAux (k + 1) rest else collapseNLAux k rest
    else c :: collapseNLAux 0 rest

/-- The newline-collapsing pass, starting outside any newline run. -/
def collapseNewlines (l : List Char) : List Char := collapseNLAux 0 l

/-- Embedding of `str.strip()`: drop leading and trailing whitespace. -/
def pyStrip (l : List Char) : List Char :=
  ((l.dropWhile isPySpace).reverse.dropWhile isPySpace).reverse

/-- Embedding of `clean_markdown` (app3.py 51-56): the four substitution
passes in source order, then `strip`. -/
def clean_markdown (text : List Char) : List Char :=
  pyStrip (collapseNewlines (removeBackticks (removeHeadings (removeBold text))))

/-! ## Text extractor (`extract_text_from_pdf`, app3.py lines 20-25) -/

/-- Embedding of `extract_text_from_pdf` on an already-parsed document,
modelled as the
list of per-page `get_text()` results in page order: `text = ""` then
`text += page.get_text()` for each page. -/
def extract_text_from_pdf (pages : List String) : String :=
  pages.foldl (fun text page => text ++ page) ""

/-- The ordered concatenation of the pages' texts, as the spec phrases it
(first page's text, then the second's, and so on). -/
def concatPages : List String → String
  | [] => ""
  | p :: rest => p ++ concatPages rest

/-! ## Report compiler (`create_pdf_report`, app3.py lines 59-89) -/

/-- One FPDF call performed by `create_pdf_report`, in program order. -/
inductive PdfOp where
  | addPage
  | checkFonts
  | addFont (family style file : String)
  | setFont (family style : String) (size : Nat)
  | cellText (text : String)
  | multiCellText (text : List Char)
  | lnBreak (h : Nat)
  | outputBuffer
  deriving DecidableEq, Repr

/-- The raised `FileNotFoundError`, with the operations already executed
when it was raised. -/
structure PdfError where
  msg : String
  executed : List PdfOp
  deriving DecidableEq, Repr

/-- Which of the two font files `os.path.isfile` finds. -/
structure FontCheck where
  regularExists : Bool
  boldExists : Bool
  deriving DecidableEq, Repr

/-- The straight-line sequence of FPDF calls `create_pdf_report` makes on
input `data` (a Python dict in insertion order, i.e. an association
list): page, font check, font registration, centered title, then per
section a bold heading and the markdown-cleaned body, then `output`. -/
def pdfOps (data : List (String × List Char)) : List PdfOp :=
  [PdfOp.addPage, PdfOp.checkFonts,
   PdfOp.addFont "DejaVu" "" "DejaVuSans.ttf",
   PdfOp.addFont "DejaVu" "B" "DejaVuSans-Bold.ttf",
   PdfOp.setFont "DejaVu" "B" 16,
   PdfOp.cellText "Screenplay Analysis Report",
   PdfOp.lnBreak 10]
  ++ data.flatMap (fun sc =>
      [PdfOp.setFont "DejaVu" "B" 14,
       PdfOp.cellText sc.1,
       PdfOp.lnBreak 2,
       PdfOp.setFont "DejaVu" "" 12,
       PdfOp.multiCellText (clean_markdown sc.2),
       PdfOp.lnBreak 10])
  ++ [PdfOp.outputBuffer]

/-- Execute the FPDF calls in order.  `checkFonts` raises
`FileNotFoundError` when either font file is missing
(`if not os.path.isfile(font_regular) or not os.path.isfile(font_bold)`),
aborting execution; on success the full executed trace (the built
document, ending in the `output` call that fills the byte buffer) is
returned. -/
def runPdf (fs : FontCheck) : List PdfOp → Except PdfError (List PdfOp)
  | [] => Except.ok []
  | op :: rest =>
    if op = PdfOp.checkFonts ∧ ¬(fs.regularExists ∧ fs.boldExists) then
      Except.error
        { msg := "Font files not found. Make sure DejaVu fonts are in the app folder.",
          executed := [op] }
    else
      match runPdf fs rest with
      | Except.ok tr => Except.ok (op :: tr)
      | Except.error e => Except.error { e with executed := op :: e.executed }

/-- Embedding of `create_pdf_report` (app3.py 59-89): run the
straight-line FPDF calls
for `data`; the result is the executed trace (the document handed back
as a byte stream) or the raised error. -/
def create_pdf_report (fs : FontCheck) (data : List (String × List Char)) :
    Except PdfError (List PdfOp) :=
  runPdf fs (pdfOps data)

/-- The text content written into the document by a trace, in order:
title/heading `cell` texts and `multi_cell` body texts. -/
def renderedTexts (ops : List PdfOp) : List String :=
  ops.filterMap (fun op =>
    match op with
    | PdfOp.cellText t => some t
    | PdfOp.multiCellText t => some (String.mk t)
    | _ => none)

/-! ## Analysis orchestrator (`get_all_analyses_single`, app3.py 92-169) -/

/-- The nine category names with their instruction texts, in the fixed
insertion order of the `prompts` dict (app3.py 97-160). -/
def promptTable : List (String × String) :=
  [("Logline",
    "Write a Hollywood-style logline for my screenplay. It should only contain the logline, making it engaging and high-concept."),
   ("Genre",
    "Suggest the genre for the provided screenplay. By genre, we mean a particular type or style of literature, art, film, or music recognizable by its special characteristics."),
   ("Top Keywords",
    "Give the top 10 keywords of the attached movie screenplay without any explanation."),
   ("Location Setting",
    "Give the location setting of the attached movie screenplay, considering only the primary location."),
   ("Synopsis",
    "Give only the synopsis of the attached screenplay."),
   ("Script Score",
    "Analyze the attached screenplay and give it a script score out of 10, including:\n- Character development score (out of 10) with 1-2 lines explanation\n- Plot construction (out of 10) with 1-2 lines explanation\n- Dialogue (out of 10) with 1-2 lines explanation\n- Originality (out of 10) with 1-2 lines explanation\n- Emotional engagement (out of 10) with 1-2 lines explanation\n- Theme and message (out of 10) with 1-2 lines explanation\n- Overall rating out of 10 with explanation"),
   ("Plot Assessment",
    "Analyze the attached screenplay and give the plot assessment and enhancement, including:\n- 5 points of what is working well (positive aspects)\n- 5 points where the screenplay lacks\n- 5 points of improvements that may be made\n- An overall review of the screenplay"),
   ("Character Profiling",
    "Analyze the attached screenplay and return character profiling for the main characters, including:\n- Brief description of each main character\n- What is working well for each character\n- Areas for improvement\n- The archetype for each"),
   ("Box Office Collection",
    "Analyze the attached screenplay and give its box office prediction with the following fields:\n- Opening day (global and local)\n- Opening week (global and local)\n- Opening month (global and local)")]

/-- Each prompt f-string is its instruction followed by the screenplay
text between triple-quote markers:
`{instruction}\n\nScreenplay:\n"""{screenplay_text}"""`. -/
def mkPrompt (instruction screenplay_text : String) : String :=
  instruction ++ "\n\nScreenplay:\n\"\"\"" ++ screenplay_text ++ "\"\"\""

/-- The `prompts` dict built by `get_all_analyses_single` (app3.py
97-160), keyed by category in the fixed order. -/
def prompts (screenplay_text : String) : List (String × String) :=
  promptTable.map (fun ni => (ni.1, mkPrompt ni.2 screenplay_text))

/-- The per-section loop (app3.py 162-169): call the remote service one
prompt at a time, in order, stopping at the first failure.  Returns the
list of prompts actually sent together with either the raised error or
the collected `results` dict. -/
def runCalls {ε : Type} (call : String → Except ε String) :
    List (String × String) → List String × Except ε (List (String × String))
  | [] => ([], Except.ok [])
  | np :: rest =>
    match call np.2 with
    | Except.error e => ([np.2], Except.error e)
    | Except.ok r =>
      let tail := runCalls call rest
      (np.2 :: tail.1, tail.2.map (fun rs => (np.1, r) :: rs))

/-- Embedding of `get_all_analyses_single` (app3.py 92-169): build the
nine prompts
from the screenplay text and run the call loop.  First component: the
prompts actually sent; second: the outcome. -/
def get_all_analyses_single {ε : Type} (call : String → Except ε String)
    (screenplay_text : String) :
    List String × Except ε (List (String × String)) :=
  runCalls call (prompts screenplay_text)

/-! ## Observations used by the claims about `clean_markdown` -/

/-- Does the string contain three consecutive newline characters? -/
def hasTripleNewline : List Char → Bool
  | c1 :: c2 :: c3 :: rest =>
    (c1 == '\n' && c2 == '\n' && c3 == '\n') || hasTripleNewline (c2 :: c3 :: rest)
  | _ => false

/-- Does the string contain four consecutive newline characters? -/
def hasQuadNewline : List Char → Bool
  | c1 :: c2 :: c3 :: c4 :: rest =>
    (c1 == '\n' && c2 == '\n' && c3 == '\n' && c4 == '\n')
      || hasQuadNewline (c2 :: c3 :: c4 :: rest)
  | _ => false

theorem hasTripleNewline_tail {c : Char} {l : List Char}
    (h : hasTripleNewline (c :: l) = false) : hasTripleNewline l = false := by
  match l with
  | [] => rfl
  | [_] => rfl
  | c2 :: c3 :: rest =>
    simp only [hasTripleNewline, Bool.or_eq_false_iff] at h
    exact h.2

theorem hasTripleNewline_cons_of_ne {c : Char} (hc : ¬(c == '\n') = true)
    (l : List Char) : hasTripleNewline (c :: l) = hasTripleNewline l := by
  match l with
  | [] => rfl
  | [_] => rfl
  | c2 :: c3 :: rest =>
    simp only [hasTripleNewline, hc, Bool.false_and, Bool.false_or]

theorem hasTripleNewline_cons {c : Char} {l : List Char}
    (h : hasTripleNewline l = true) : hasTripleNewline (c :: l) = true := by
  match l with
  | [] => simp [hasTripleNewline] at h
  | [_] => simp [hasTripleNewline] at h
  | c2 :: c3 :: rest => simp only [hasTripleNewline, h, Bool.or_true]

theorem hasTripleNewline_append_left {l : List Char} (y : List Char)
    (h : hasTripleNewline l = true) : hasTripleNewline (y ++ l) = true := by
  induction y with
  | nil => simpa using h
  | cons c y ih => exact hasTripleNewline_cons ih

theorem hasTripleNewline_append_right {l : List Char} (y : List Char)
    (h : hasTripleNewline l = true) : hasTripleNewline (l ++ y) = true := by
  induction l with
  | nil => simp [hasTripleNewline] at h
  | cons c l ih =>
    match l with
    | [] => simp [hasTripleNewline] at h
    | [_] => simp [hasTripleNewline] at h
    | c2 :: c3 :: rest =>
      rw [hasTripleNewline, Bool.or_eq_true] at h
      rcases h with h | h
      · simp only [List.cons_append, hasTripleNewline, h, Bool.true_or]
      · exact hasTripleNewline_cons (ih h)

theorem hasQuadNewline_eq_false {l : List Char}
    (h : hasTripleNewline l = false) : hasQuadNewline l = false := by
  induction l with
  | nil => rfl
  | cons c l ih =>
    match l with
    | [] => rfl
    | [_] => rfl
    | [_, _] => rfl
    | c2 :: c3 :: c4 :: rest =>
      have h2 : hasTripleNewline (c2 :: c3 :: c4 :: rest) = false :=
        hasTripleNewline_tail h
      rw [hasQuadNewline, Bool.or_eq_false_iff]
      refine ⟨?_, ih h2⟩
      rw [hasTripleNewline, Bool.or_eq_false_iff] at h
      cases hc1 : c == '\n' <;> cases hc2 : c2 == '\n' <;> cases hc3 : c3 == '\n' <;>
        simp_all

theorem hasTripleNewline_two_cons {c : Char} (a : Char) (hc : ¬(c == '\n') = true)
    {X : List Char} (hX : hasTripleNewline X = false) :
    hasTripleNewline (a :: c :: X) = false := by
  match X with
  | [] => rfl
  | x :: xs =>
    rw [hasTripleNewline, Bool.or_eq_false_iff]
    constructor
    · cases hb : (c == '\n') <;> simp_all
    · rw [hasTripleNewline_cons_of_ne hc]
      exact hX

theorem hasTripleNewline_replicate_cons {c : Char} (hc : ¬(c == '\n') = true)
    {X : List Char} (hX : hasTripleNewline X = false) {m : Nat} (hm : m ≤ 2) :
    hasTripleNewline (List.replicate m '\n' ++ c :: X) = false := by
  match m, hm with
  | 0, _ =>
    rw [List.replicate_zero, List.nil_append, hasTripleNewline_cons_of_ne hc]
    exact hX
  | 1, _ =>
    exact hasTripleNewline_two_cons '\n' hc hX
  | 2, _ =>
    show hasTripleNewline ('\n' :: '\n' :: c :: X) = false
    rw [hasTripleNewline, Bool.or_eq_false_iff]
    refine ⟨by cases hb : (c == '\n') <;> simp_all, ?_⟩
    exact hasTripleNewline_two_cons '\n' hc hX

theorem collapseNLAux_no_triple : ∀ (l : List Char) (k : Nat),
    hasTripleNewline (List.replicate (min k 2) '\n' ++ collapseNLAux k l) = false := by
  intro l
  induction l with
  | nil =>
    intro k
    have hm : min k 2 ≤ 2 := Nat.min_le_right _ _
    match hv : min k 2, hm with
    | 0, _ => rfl
    | 1, _ => rfl
    | 2, _ => rfl
  | cons c rest ih =>
    intro k
    by_cases hc : (c == '\n') = true
    · by_cases hk : k < 2
      · have e1 : min k 2 = k := by omega
        have e2 : min (k + 1) 2 = k + 1 := by omega
        have e3 : List.replicate k '\n' ++ '\n' :: collapseNLAux (k + 1) rest
            = List.replicate (k + 1) '\n' ++ collapseNLAux (k + 1) rest := by
          rw [List.replicate_succ' k '\n', List.append_assoc, List.singleton_append]
        rw [collapseNLAux, if_pos hc, if_pos hk, e1, e3]
        have := ih (k + 1)
        rw [e2] at this
        exact this
      · rw [collapseNLAux, if_pos hc, if_neg hk]
        exact ih k
    · rw [collapseNLAux, if_neg hc]
      exact hasTripleNewline_replicate_cons hc (by simpa using ih 0) (Nat.min_le_right _ _)

theorem collapseNewlines_no_triple (l : List Char) :
    hasTripleNewline (collapseNewlines l) = false := by
  have := collapseNLAux_no_triple l 0
  simpa [collapseNewlines] using this

theorem collapseNLAux_eq_self : ∀ (l : List Char) (k : Nat),
    hasTripleNewline (List.replicate (min k 2) '\n' ++ l) = false →
    collapseNLAux k l = l := by
  intro l
  induction l with
  | nil => intro k _; rfl
  | cons c rest ih =>
    intro k h
    by_cases hc : (c == '\n') = true
    · have hceq : c = '\n' := by simpa using hc
      by_cases hk : k < 2
      · have e1 : min k 2 = k := by omega
        have e2 : min (k + 1) 2 = k + 1 := by omega
        rw [collapseNLAux, if_pos hc, if_pos hk, hceq]
        congr 1
        apply ih (k + 1)
        rw [e2, List.replicate_succ' k '\n', List.append_assoc, List.singleton_append]
        rw [e1, hceq] at h
        exact h
      · exfalso
        have e1 : min k 2 = 2 := by omega
        rw [e1, hceq] at h
        rw [show (List.replicate 2 '\n' ++ '\n' :: rest) = '\n' :: '\n' :: '\n' :: rest
          from rfl] at h
        rw [hasTripleNewline] at h
        simp at h
    · rw [collapseNLAux, if_neg hc]
      congr 1
      apply ih 0
      rw [show min 0 2 = 0 from rfl, List.replicate_zero, List.nil_append]
      have h1 : hasTripleNewline (c :: rest) = false := by
        by_contra hcon
        have ht : hasTripleNewline (c :: rest) = true := by
          cases hv : hasTripleNewline (c :: rest) with
          | true => rfl
          | false => exact absurd hv hcon
        rw [hasTripleNewline_append_left (List.replicate (min k 2) '\n') ht] at h
        cases h
      exact hasTripleNewline_tail h1

theorem collapseNewlines_eq_self {l : List Char}
    (h : hasTripleNewline l = false) : collapseNewlines l = l :=
  collapseNLAux_eq_self l 0 (by simpa using h)

theorem pyStrip_decomp (l : List Char) : ∃ a b, l = a ++ pyStrip l ++ b := by
  refine ⟨l.takeWhile isPySpace,
    ((l.dropWhile isPySpace).reverse.takeWhile isPySpace).reverse, ?_⟩
  have h1 : (l.dropWhile isPySpace).reverse
      = (l.dropWhile isPySpace).reverse.takeWhile isPySpace
        ++ (l.dropWhile isPySpace).reverse.dropWhile isPySpace :=
    (List.takeWhile_append_dropWhile isPySpace _).symm
  have h2 : l.dropWhile isPySpace
      = pyStrip l ++ ((l.dropWhile isPySpace).reverse.takeWhile isPySpace).reverse := by
    have := congrArg List.reverse h1
    rw [List.reverse_reverse, List.reverse_append] at this
    exact this
  conv_lhs => rw [← List.takeWhile_append_dropWhile isPySpace l, h2]
  rw [List.append_assoc]

theorem hasTripleNewline_pyStrip {l : List Char}
    (h : hasTripleNewline l = false) : hasTripleNewline (pyStrip l) = false := by
  obtain ⟨a, b, hd⟩ := pyStrip_decomp l
  by_contra hcon
  have ht : hasTripleNewline (pyStrip l) = true := by
    cases hv : hasTripleNewline (pyStrip l) with
    | true => rfl
    | false => exact absurd hv hcon
  have : hasTripleNewline l = true := by
    rw [hd, List.append_assoc]
    exact hasTripleNewline_append_left a (hasTripleNewline_append_right b ht)
  rw [this] at h
  cases h

theorem mem_of_mem_pyStrip {c : Char} {l : List Char}
    (h : c ∈ pyStrip l) : c ∈ l := by
  obtain ⟨a, b, hd⟩ := pyStrip_decomp l
  rw [hd]
  exact List.mem_append_left _ (List.mem_append_right _ h)

theorem mem_of_mem_collapseNLAux :
    ∀ (l : List Char) (k : Nat) (c : Char),
      c ∈ collapseNLAux k l → c ∈ l ∨ c = '\n' := by
  intro l
  induction l with
  | nil => intro k c h; cases h
  | cons a rest ih =>
    intro k c h
    by_cases ha : (a == '\n') = true
    · by_cases hk : k < 2
      · rw [collapseNLAux, if_pos ha, if_pos hk] at h
        rcases List.mem_cons.mp h with h | h
        · exact Or.inr h
        · rcases ih (k + 1) c h with h | h
          · exact Or.inl (List.mem_cons_of_mem _ h)
          · exact Or.inr h
      · rw [collapseNLAux, if_pos ha, if_neg hk] at h
        rcases ih k c h with h | h
        · exact Or.inl (List.mem_cons_of_mem _ h)
        · exact Or.inr h
    · rw [collapseNLAux, if_neg ha] at h
      rcases List.mem_cons.mp h with h | h
      · exact Or.inl (h ▸ List.mem_cons_self _ _)
      · rcases ih 0 c h with h | h
        · exact Or.inl (List.mem_cons_of_mem _ h)
        · exact Or.inr h

theorem dropWhile_dropWhile (p : Char → Bool) (l : List Char) :
    (l.dropWhile p).dropWhile p = l.dropWhile p := by
  induction l with
  | nil => rfl
  | cons c rest ih =>
    by_cases hp : p c = true
    · simp only [List.dropWhile_cons, hp, if_true]
      exact ih
    · simp only [List.dropWhile_cons, hp, if_false, Bool.false_eq_true]

theorem dropWhile_head_false {p : Char → Bool} {l : List Char} {c : Char}
    {cs : List Char} (h : l.dropWhile p = c :: cs) : p c = false := by
  induction l with
  | nil => cases h
  | cons a rest ih =>
    by_cases hp : p a = true
    · rw [List.dropWhile_cons, if_pos hp] at h
      exact ih h
    · rw [List.dropWhile_cons, if_neg hp] at h
      cases h
      cases hv : p c with
      | false => rfl
      | true => exact absurd hv hp

theorem dropWhile_eq_self_of_head {p : Char → Bool} {l : List Char}
    (h : ∀ c cs, l = c :: cs → p c = false) : l.dropWhile p = l := by
  cases l with
  | nil => rfl
  | cons c cs => rw [List.dropWhile_cons, if_neg (by simp [h c cs rfl])]

theorem pyStrip_idem (l : List Char) : pyStrip (pyStrip l) = pyStrip l := by
  have hA : (pyStrip l).dropWhile isPySpace = pyStrip l := by
    apply dropWhile_eq_self_of_head
    intro c cs hcs
    have h1 : (l.dropWhile isPySpace).reverse
        = (l.dropWhile isPySpace).reverse.takeWhile isPySpace
          ++ (l.dropWhile isPySpace).reverse.dropWhile isPySpace :=
      (List.takeWhile_append_dropWhile isPySpace _).symm
    have h2 : l.dropWhile isPySpace
        = pyStrip l ++ ((l.dropWhile isPySpace).reverse.takeWhile isPySpace).reverse := by
      have := congrArg List.reverse h1
      rw [List.reverse_reverse, List.reverse_append] at this
      exact this
    rw [hcs] at h2
    exact dropWhile_head_false (l := l) (by rw [h2, List.cons_append])
  show (((pyStrip l).dropWhile isPySpace).reverse.dropWhile isPySpace).reverse = pyStrip l
  rw [hA]
  show (((((l.dropWhile isPySpace).reverse.dropWhile isPySpace).reverse).reverse).dropWhile isPySpace).reverse = pyStrip l
  rw [List.reverse_reverse, dropWhile_dropWhile]
  rfl

theorem removeBold_eq_self {l : List Char}
    (h : ∀ c ∈ l, c ≠ '*' ∧ c ≠ '_') : removeBold l = l := by
  induction l with
  | nil => rfl
  | cons c rest ih =>
    match rest with
    | [] => rfl
    | c2 :: rest2 =>
      rw [removeBold, if_neg]
      · rw [ih (fun d hd => h d (List.mem_cons_of_mem _ hd))]
      · have h1 := h c (List.mem_cons_self _ _)
        simp [h1.1, h1.2]

theorem removeHeadings_eq_self {l : List Char}
    (h : ∀ c ∈ l, c ≠ '#') : removeHeadings l = l := by
  induction l with
  | nil => rfl
  | cons c rest ih =>
    rw [removeHeadings, if_neg (by simp [h c (List.mem_cons_self _ _)])]
    rw [ih (fun d hd => h d (List.mem_cons_of_mem _ hd))]

theorem removeBackticks_eq_self {l : List Char}
    (h : ∀ c ∈ l, c ≠ backtickChar) : removeBackticks l = l := by
  rw [removeBackticks, List.filter_eq_self]
  intro a ha
  simp [h a ha]

theorem clean_markdown_no_triple (s : List Char) :
    hasTripleNewline (clean_markdown s) = false :=
  hasTripleNewline_pyStrip (collapseNewlines_no_triple _)

/-! ## Claim C1: idempotence of the markup cleaner -/

/-- C1 counterexample: `clean_markdown` is not idempotent.  On the input
`"*#*"` the heading pass deletes the `#` and yields `"**"`, which a
second application deletes entirely: cleaning twice gives `""`, not
`"**"`. -/
theorem clean_markdown_not_idempotent :
    clean_markdown (clean_markdown ['*', '#', '*']) ≠ clean_markdown ['*', '#', '*'] := by
  decide

/-- C1 (amended): `clean_markdown` is idempotent on every input containing
no asterisk, underscore, hash mark and backtick — on such strings the
three token-stripping passes are the identity, and the newline-collapsing
and trimming passes are jointly idempotent. -/
theorem clean_markdown_idempotent_of_plain (s : List Char)
    (h : ∀ c ∈ s, c ≠ '*' ∧ c ≠ '_' ∧ c ≠ '#' ∧ c ≠ backtickChar) :
    clean_markdown (clean_markdown s) = clean_markdown s := by
  have hplain : ∀ t : List Char,
      (∀ c ∈ t, c ≠ '*' ∧ c ≠ '_' ∧ c ≠ '#' ∧ c ≠ backtickChar) →
      clean_markdown t = pyStrip (collapseNewlines t) := by
    intro t ht
    rw [clean_markdown,
      removeBold_eq_self (fun c hc => ⟨(ht c hc).1, (ht c hc).2.1⟩),
      removeHeadings_eq_self (fun c hc => (ht c hc).2.2.1),
      removeBackticks_eq_self (fun c hc => (ht c hc).2.2.2)]
  have e1 : clean_markdown s = pyStrip (collapseNewlines s) := hplain s h
  have hmem : ∀ c ∈ clean_markdown s, c ≠ '*' ∧ c ≠ '_' ∧ c ≠ '#' ∧ c ≠ backtickChar := by
    intro c hc
    rw [e1] at hc
    rcases mem_of_mem_collapseNLAux s 0 c (mem_of_mem_pyStrip hc) with hs | hnl
    · exact h c hs
    · subst hnl
      exact ⟨by decide, by decide, by decide, by decide⟩
  have e2 : clean_markdown (clean_markdown s)
      = pyStrip (collapseNewlines (clean_markdown s)) := hplain _ hmem
  have e3 : collapseNewlines (clean_markdown s) = clean_markdown s :=
    collapseNewlines_eq_self (clean_markdown_no_triple s)
  rw [e2, e3, e1, pyStrip_idem]

/-- C1 witness: the amended idempotence theorem applied at a concrete
markup-free input. -/
theorem clean_markdown_idempotent_of_plain_witness :
    clean_markdown (clean_markdown ['a', '\n', 'b']) = clean_markdown ['a', '\n', 'b'] :=
  clean_markdown_idempotent_of_plain ['a', '\n', 'b'] (by decide)

/-! ## Claim C5: no long newline runs in cleaned output -/

/-- C5: for every input string, the output of `clean_markdown` never
contains four or more consecutive newline characters (the collapsing pass
leaves no run of even three, and trimming cannot create one). -/
theorem clean_markdown_no_quad_newline (s : List Char) :
    hasQuadNewline (clean_markdown s) = false :=
  hasQuadNewline_eq_false (clean_markdown_no_triple s)

/-! ## Claims C3 and C9: the text extractor -/

theorem foldl_append_eq (pages : List String) :
    ∀ acc : String, pages.foldl (fun text page => text ++ page) acc
      = acc ++ concatPages pages := by
  induction pages with
  | nil => intro acc; rw [List.foldl_nil, concatPages, String.append_empty]
  | cons p rest ih =>
    intro acc
    rw [List.foldl_cons, ih, concatPages, String.append_assoc]

/-- C3: the text extractor returns exactly the ordered concatenation of
the per-page texts; in particular on a single-page document it returns
that page's text unchanged. -/
theorem extract_text_from_pdf_concat (pages : List String) :
    extract_text_from_pdf pages = concatPages pages ∧
    ∀ p : String, extract_text_from_pdf [p] = p := by
  constructor
  · rw [extract_text_from_pdf, foldl_append_eq, String.empty_append]
  · intro p
    rw [extract_text_from_pdf, List.foldl_cons, List.foldl_nil, String.empty_append]

/-- C9: on a parseable document with zero pages the loop body never runs
and the extractor returns the empty string (it does not fail). -/
theorem extract_text_from_pdf_zero_pages : extract_text_from_pdf [] = "" := rfl

/-! ## Report-compiler lemmas -/

theorem runPdf_ok_of_fonts {fs : FontCheck}
    (hfs : fs.regularExists ∧ fs.boldExists) :
    ∀ ops : List PdfOp, runPdf fs ops = Except.ok ops := by
  intro ops
  induction ops with
  | nil => rfl
  | cons op rest ih =>
    rw [runPdf, if_neg (fun hcon => hcon.2 hfs), ih]

theorem create_pdf_report_error_of_missing (fs : FontCheck)
    (data : List (String × List Char)) (h : ¬(fs.regularExists ∧ fs.boldExists)) :
    create_pdf_report fs data = Except.error
      { msg := "Font files not found. Make sure DejaVu fonts are in the app folder.",
        executed := [PdfOp.addPage, PdfOp.checkFonts] } := by
  have h1 : runPdf fs (PdfOp.checkFonts :: (pdfOps data).drop 2) = Except.error
      { msg := "Font files not found. Make sure DejaVu fonts are in the app folder.",
        executed := [PdfOp.checkFonts] } := by
    rw [runPdf, if_pos ⟨rfl, h⟩]
  show runPdf fs (PdfOp.addPage :: PdfOp.checkFonts :: (pdfOps data).drop 2) = _
  rw [runPdf, if_neg (fun hcon => by cases hcon.1), h1]

theorem renderedTexts_append (xs ys : List PdfOp) :
    renderedTexts (xs ++ ys) = renderedTexts xs ++ renderedTexts ys := by
  rw [renderedTexts, renderedTexts, renderedTexts, List.filterMap_append]

theorem renderedTexts_pdfOps (data : List (String × List Char)) :
    renderedTexts (pdfOps data)
      = "Screenplay Analysis Report"
          :: data.flatMap (fun sc => [sc.1, String.mk (clean_markdown sc.2)]) := by
  rw [pdfOps, renderedTexts_append, renderedTexts_append]
  have h1 : renderedTexts [PdfOp.addPage, PdfOp.checkFonts,
      PdfOp.addFont "DejaVu" "" "DejaVuSans.ttf",
      PdfOp.addFont "DejaVu" "B" "DejaVuSans-Bold.ttf",
      PdfOp.setFont "DejaVu" "B" 16,
      PdfOp.cellText "Screenplay Analysis Report",
      PdfOp.lnBreak 10] = ["Screenplay Analysis Report"] := rfl
  have h2 : renderedTexts [PdfOp.outputBuffer] = [] := rfl
  have h3 : ∀ d : List (String × List Char),
      renderedTexts (d.flatMap (fun sc =>
        [PdfOp.setFont "DejaVu" "B" 14, PdfOp.cellText sc.1, PdfOp.lnBreak 2,
         PdfOp.setFont "DejaVu" "" 12, PdfOp.multiCellText (clean_markdown sc.2),
         PdfOp.lnBreak 10]))
      = d.flatMap (fun sc => [sc.1, String.mk (clean_markdown sc.2)]) := by
    intro d
    induction d with
    | nil => rfl
    | cons sc rest ih =>
      rw [List.flatMap_cons, List.flatMap_cons, renderedTexts_append, ih]
      rfl
  rw [h1, h2, h3, List.append_nil, List.singleton_append]

theorem map_fst_sublist_flatMap_pair (f : String × List Char → String) :
    ∀ data : List (String × List Char),
      (data.map Prod.fst).Sublist (data.flatMap (fun sc => [sc.1, f sc])) := by
  intro data
  induction data with
  | nil => exact List.Sublist.refl []
  | cons sc rest ih =>
    rw [List.map_cons, List.flatMap_cons]
    exact List.Sublist.cons₂ sc.1 (List.Sublist.cons (f sc) ih)

/-! ## Claim C7: missing fonts abort the compiler -/

/-- C7: when either font file is unavailable, `create_pdf_report` raises
`FileNotFoundError` with the resource-missing message and returns no
document. -/
theorem create_pdf_report_missing_font (fs : FontCheck)
    (data : List (String × List Char))
    (h : ¬(fs.regularExists ∧ fs.boldExists)) :
    (∃ e : PdfError, create_pdf_report fs data = Except.error e ∧
      e.msg = "Font files not found. Make sure DejaVu fonts are in the app folder.") ∧
    ∀ doc, create_pdf_report fs data ≠ Except.ok doc := by
  have he := create_pdf_report_error_of_missing fs data h
  refine ⟨⟨_, he, rfl⟩, ?_⟩
  intro doc hcon
  rw [he] at hcon
  cases hcon

/-- C7 witness: the theorem applied with the regular font file absent. -/
theorem create_pdf_report_missing_font_witness :
    (∃ e : PdfError,
      create_pdf_report ⟨false, true⟩ [("Logline", ['x'])] = Except.error e ∧
      e.msg = "Font files not found. Make sure DejaVu fonts are in the app folder.") ∧
    ∀ doc, create_pdf_report ⟨false, true⟩ [("Logline", ['x'])] ≠ Except.ok doc :=
  create_pdf_report_missing_font ⟨false, true⟩ [("Logline", ['x'])] (by decide)

/-! ## Claim C10: the font check precedes registration and writing -/

/-- C10: the font existence check runs before any font registration and
before any title, heading or body write: when it fails, the executed
trace is exactly page setup plus the check — it contains no `add_font`,
no `cell`, no `multi_cell` and no `output`, and nothing is rendered, so
no partial byte stream reaches the caller. -/
theorem create_pdf_report_check_before_output (fs : FontCheck)
    (data : List (String × List Char))
    (h : ¬(fs.regularExists ∧ fs.boldExists)) :
    ∃ e : PdfError, create_pdf_report fs data = Except.error e ∧
      e.executed = [PdfOp.addPage, PdfOp.checkFonts] ∧
      renderedTexts e.executed = [] ∧
      ∀ op ∈ e.executed,
        (∀ fam sty file, op ≠ PdfOp.addFont fam sty file) ∧
        (∀ t, op ≠ PdfOp.cellText t) ∧
        (∀ t, op ≠ PdfOp.multiCellText t) ∧
        op ≠ PdfOp.outputBuffer := by
  refine ⟨_, create_pdf_report_error_of_missing fs data h, rfl, rfl, ?_⟩
  intro op hop
  rcases List.mem_cons.mp hop with hop | hop
  · subst hop
    refine ⟨?_, ?_, ?_, ?_⟩ <;> intros <;> intro hcon <;> cases hcon
  · rcases List.mem_cons.mp hop with hop | hop
    · subst hop
      refine ⟨?_, ?_, ?_, ?_⟩ <;> intros <;> intro hcon <;> cases hcon
    · cases hop

/-- C10 witness: the theorem applied with the bold font file absent. -/
theorem create_pdf_report_check_before_output_witness :
    ∃ e : PdfError,
      create_pdf_report ⟨true, false⟩ [("Genre", ['y'])] = Except.error e ∧
      e.executed = [PdfOp.addPage, PdfOp.checkFonts] ∧
      renderedTexts e.executed = [] ∧
      ∀ op ∈ e.executed,
        (∀ fam sty file, op ≠ PdfOp.addFont fam sty file) ∧
        (∀ t, op ≠ PdfOp.cellText t) ∧
        (∀ t, op ≠ PdfOp.multiCellText t) ∧
        op ≠ PdfOp.outputBuffer :=
  create_pdf_report_check_before_output ⟨true, false⟩ [("Genre", ['y'])] (by decide)

/-! ## Claim C2: behaviour on an incomplete mapping -/

/-- C2 counterexample: with both font files present and a mapping holding
only the `Logline` key (eight of the nine required keys missing),
`create_pdf_report` does not fail — it returns a document. -/
theorem create_pdf_report_incomplete_accepted :
    (create_pdf_report ⟨true, true⟩ [("Logline", ['x'])]).isOk = true := by
  decide

/-- C2 (amended): the compiler performs no key validation at all.  For
every mapping (complete or not), when the font files are present it
succeeds and renders exactly the sections present — the title followed,
per entry in mapping order, by that entry's heading and cleaned body —
silently omitting any missing category. -/
theorem create_pdf_report_renders_present_sections (fs : FontCheck)
    (data : List (String × List Char))
    (hfs : fs.regularExists ∧ fs.boldExists) :
    ∃ doc, create_pdf_report fs data = Except.ok doc ∧
      renderedTexts doc
        = "Screenplay Analysis Report"
            :: data.flatMap (fun sc => [sc.1, String.mk (clean_markdown sc.2)]) :=
  ⟨pdfOps data, runPdf_ok_of_fonts hfs (pdfOps data), renderedTexts_pdfOps data⟩

/-- C2 witness: the amended theorem applied to a one-key mapping with
fonts present. -/
theorem create_pdf_report_renders_present_sections_witness :
    ∃ doc, create_pdf_report ⟨true, true⟩ [("Logline", ['x'])] = Except.ok doc ∧
      renderedTexts doc
        = "Screenplay Analysis Report"
            :: [("Logline", ['x'])].flatMap
                (fun sc => [sc.1, String.mk (clean_markdown sc.2)]) :=
  create_pdf_report_renders_present_sections ⟨true, true⟩ [("Logline", ['x'])] (by decide)

/-! ## Claim C6: a complete mapping yields the full document -/

/-- C6: for every mapping whose keys are exactly the nine fixed category
labels in the fixed order (with arbitrary contents), and with both fonts
present, the compiler returns a nonempty document whose rendered text
contains the title and all nine labels, in that order. -/
theorem create_pdf_report_complete (fs : FontCheck)
    (data : List (String × List Char))
    (hfs : fs.regularExists ∧ fs.boldExists)
    (hkeys : data.map Prod.fst
      = ["Logline", "Genre", "Top Keywords", "Location Setting", "Synopsis",
         "Script Score", "Plot Assessment", "Character Profiling",
         "Box Office Collection"]) :
    ∃ doc, create_pdf_report fs data = Except.ok doc ∧ doc ≠ [] ∧
      List.Sublist
        ("Screenplay Analysis Report"
          :: ["Logline", "Genre", "Top Keywords", "Location Setting", "Synopsis",
              "Script Score", "Plot Assessment", "Character Profiling",
              "Box Office Collection"])
        (renderedTexts doc) := by
  refine ⟨pdfOps data, runPdf_ok_of_fonts hfs (pdfOps data), ?_, ?_⟩
  · rw [pdfOps]
    intro hcon
    cases hcon
  · rw [renderedTexts_pdfOps data, ← hkeys]
    exact List.Sublist.cons₂ _
      (map_fst_sublist_flatMap_pair (fun sc => String.mk (clean_markdown sc.2)) data)

/-- C6 witness: the theorem applied to a complete mapping with empty
bodies and fonts present. -/
theorem create_pdf_report_complete_witness :
    ∃ doc, create_pdf_report ⟨true, true⟩
        [("Logline", []), ("Genre", []), ("Top Keywords", []),
         ("Location Setting", []), ("Synopsis", []), ("Script Score", []),
         ("Plot Assessment", []), ("Character Profiling", []),
         ("Box Office Collection", [])] = Except.ok doc ∧ doc ≠ [] ∧
      List.Sublist
        ("Screenplay Analysis Report"
          :: ["Logline", "Genre", "Top Keywords", "Location Setting", "Synopsis",
              "Script Score", "Plot Assessment", "Character Profiling",
              "Box Office Collection"])
        (renderedTexts doc) :=
  create_pdf_report_complete ⟨true, true⟩
    [("Logline", []), ("Genre", []), ("Top Keywords", []),
     ("Location Setting", []), ("Synopsis", []), ("Script Score", []),
     ("Plot Assessment", []), ("Character Profiling", []),
     ("Box Office Collection", [])] (by decide) (by decide)

/-! ## Orchestrator lemmas -/

theorem runCalls_error_charac {ε : Type} (call : String → Except ε String) :
    ∀ (ps : List (String × String)) (e : ε),
      (runCalls call ps).2 = Except.error e →
      ∃ k, k < ps.length ∧
        (∀ q ∈ (ps.map Prod.snd).take k, ∃ r, call q = Except.ok r) ∧
        (∃ p, (ps.map Prod.snd)[k]? = some p ∧ call p = Except.error e) ∧
        (runCalls call ps).1 = (ps.map Prod.snd).take (k + 1) := by
  intro ps
  induction ps with
  | nil =>
    intro e h
    rw [runCalls] at h
    cases h
  | cons np rest ih =>
    intro e h
    rcases hc : call np.2 with e' | r
    · have hrc : runCalls call (np :: rest) = ([np.2], Except.error e') := by
        rw [runCalls, hc]
      rw [hrc] at h
      cases h
      refine ⟨0, Nat.succ_pos _, ?_, ⟨np.2, by simp, hc⟩, ?_⟩
      · intro q hq
        simp at hq
      · rw [hrc, List.map_cons, List.take_succ_cons, List.take_zero]
    · have hrc : runCalls call (np :: rest)
          = (np.2 :: (runCalls call rest).1,
             Except.map (fun rs => (np.1, r) :: rs) (runCalls call rest).2) := by
        rw [runCalls, hc]
      rw [hrc] at h
      have h' : Except.map (fun rs => (np.1, r) :: rs) (runCalls call rest).2
          = Except.error e := h
      have htail : (runCalls call rest).2 = Except.error e := by
        rcases hv : (runCalls call rest).2 with e'' | rs
        · rw [hv] at h'
          simp only [Except.map] at h'
          rw [h']
        · rw [hv] at h'
          simp only [Except.map] at h'
          cases h'
      obtain ⟨k, hk, hpre, ⟨p, hp, hperr⟩, htr⟩ := ih e htail
      refine ⟨k + 1, Nat.succ_lt_succ hk, ?_, ⟨p, by simpa using hp, hperr⟩, ?_⟩
      · intro q hq
        rw [List.map_cons, List.take_succ_cons] at hq
        rcases List.mem_cons.mp hq with hq | hq
        · exact ⟨r, hq ▸ hc⟩
        · exact hpre q hq
      · rw [hrc, htr, List.map_cons, List.take_succ_cons]

theorem runCalls_trace_of_ok {ε : Type} (call : String → Except ε String) :
    ∀ ps : List (String × String),
      (∀ q ∈ ps.map Prod.snd, ∃ r, call q = Except.ok r) →
      (runCalls call ps).1 = ps.map Prod.snd := by
  intro ps
  induction ps with
  | nil => intro _; rfl
  | cons np rest ih =>
    intro h
    obtain ⟨r, hr⟩ := h np.2 (by rw [List.map_cons]; exact List.mem_cons_self _ _)
    rw [runCalls, hr]
    show np.2 :: (runCalls call rest).1 = _
    rw [ih (fun q hq => h q (by rw [List.map_cons]; exact List.mem_cons_of_mem _ hq)),
      List.map_cons]

/-! ## Claim C4: a failed call aborts the batch -/

/-- C4: if some category's remote call fails, the orchestrator propagates
exactly that error and returns no result mapping (not even a partial
one), and the prompts actually sent are precisely the first `k + 1` of
the fixed sequence — every call before the failing one succeeded, and no
category after the failed one is ever called. -/
theorem get_all_analyses_single_failure_aborts {ε : Type}
    (call : String → Except ε String) (s : String) (e : ε)
    (h : (get_all_analyses_single call s).2 = Except.error e) :
    (∀ res, (get_all_analyses_single call s).2 ≠ Except.ok res) ∧
    ∃ k, k < (prompts s).length ∧
      (∀ q ∈ ((prompts s).map Prod.snd).take k, ∃ r, call q = Except.ok r) ∧
      (∃ p, ((prompts s).map Prod.snd)[k]? = some p ∧ call p = Except.error e) ∧
      (get_all_analyses_single call s).1 = ((prompts s).map Prod.snd).take (k + 1) := by
  constructor
  · intro res hcon
    rw [h] at hcon
    cases hcon
  · exact runCalls_error_charac call (prompts s) e h

/-- The transport-failure oracle used by the C4 witness: the call for the
`Genre` prompt (the second category) fails, every other call succeeds. -/
def genreFailCall : String → Except String String := fun p =>
  if p = mkPrompt "Suggest the genre for the provided screenplay. By genre, we mean a particular type or style of literature, art, film, or music recognizable by its special characteristics." "" then
    Except.error "transport error"
  else
    Except.ok "resp"

set_option maxRecDepth 40000 in
/-- C4 witness: the theorem applied to the oracle that fails on the
`Genre` category with the empty screenplay text. -/
theorem get_all_analyses_single_failure_aborts_witness :
    (∀ res, (get_all_analyses_single genreFailCall "").2 ≠ Except.ok res) ∧
    ∃ k, k < (prompts "").length ∧
      (∀ q ∈ ((prompts "").map Prod.snd).take k, ∃ r, genreFailCall q = Except.ok r) ∧
      (∃ p, ((prompts "").map Prod.snd)[k]? = some p ∧
        genreFailCall p = Except.error "transport error") ∧
      (get_all_analyses_single genreFailCall "").1
        = ((prompts "").map Prod.snd).take (k + 1) :=
  get_all_analyses_single_failure_aborts genreFailCall "" "transport error" (by decide)

/-! ## Claim C8: empty screenplay text still triggers all nine calls -/

/-- C8: when the screenplay text is the empty string and every remote
call succeeds, the orchestrator still sends nine prompts, one per
category in the fixed order, and each sent prompt is exactly its
category's instruction text followed by the delimiters wrapped around an
empty screenplay body — there is no short-circuit on empty text. -/
theorem get_all_analyses_single_empty_text {ε : Type}
    (call : String → Except ε String)
    (h : ∀ p, ∃ r, call p = Except.ok r) :
    (get_all_analyses_single call "").1.length = 9 ∧
    (get_all_analyses_single call "").1
      = promptTable.map (fun ni => ni.2 ++ "\n\nScreenplay:\n\"\"\"" ++ "" ++ "\"\"\"") := by
  have htr : (get_all_analyses_single call "").1 = (prompts "").map Prod.snd :=
    runCalls_trace_of_ok call (prompts "") (fun q _ => h q)
  constructor
  · rw [htr]
    rfl
  · rw [htr, prompts, List.map_map]
    rfl

/-- The always-successful oracle used by the C8 witness. -/
def okCall : String → Except String String := fun _ => Except.ok "response"

/-- C8 witness: the theorem applied to the always-successful oracle. -/
theorem get_all_analyses_single_empty_text_witness :
    (get_all_analyses_single okCall "").1.length = 9 ∧
    (get_all_analyses_single okCall "").1
      = promptTable.map (fun ni => ni.2 ++ "\n\nScreenplay:\n\"\"\"" ++ "" ++ "\"\"\"") :=
  get_all_analyses_single_empty_text okCall (fun _ => ⟨"response", rfl⟩)
